import Mathlib

/-!
A shallow embedding of `flask_context_manager.py`, a one-shot project
scaffolding script.  The filesystem is modelled as an association list
from paths (component lists) to entries, where an earlier pair shadows a
later pair with the same path.  Each host construct the script uses
(`os.path.exists`, `os.makedirs`, `open(path, 'w')` with `write`, and
`argparse` with a single positional `command` restricted to
`choices=['start']`, including the auto `-h`/`--help` option and the
`--` positional separator) is given an explicit model, and the script's own
functions (`create_directory`, `create_file`, `setup_project_structure`,
`main`) are translated one-to-one.
-/

namespace FCM

/-- A filesystem entry: a directory, or a regular file with its content. -/
inductive Entry where
  | dir : Entry
  | file : String → Entry
deriving DecidableEq, Inhabited

/-- A path, as its list of components (the pieces between the slashes). -/
abbrev Path := List String

/-- Helper for `splitPath`: structural recursion over the character list,
accumulating the current component in reverse. -/
def splitPathAux : List Char → List Char → List String
  | [], acc => [String.mk acc.reverse]
  | c :: cs, acc =>
    if c = '/' then String.mk acc.reverse :: splitPathAux cs []
    else splitPathAux cs (c :: acc)

/-- Split a slash-separated relative path string into its components.
This is the interpretation the OS layer applies to the script's string
arguments. -/
def splitPath (s : String) : Path :=
  splitPathAux s.data []

/-- The filesystem: an association list from paths to entries.  An earlier
pair shadows a later pair with the same path, so an overwrite is a cons. -/
structure FS where
  entries : List (Path × Entry)
deriving DecidableEq

/-- The empty working directory. -/
def FS.empty : FS := ⟨[]⟩

/-- Look up the entry at a path (first match wins). -/
def FS.lookup (fs : FS) (p : Path) : Option Entry :=
  (fs.entries.find? (fun e => decide (e.1 = p))).map (fun e => e.2)

/-- Write an entry at a path, shadowing any previous entry there. -/
def FS.insert (fs : FS) (p : Path) (e : Entry) : FS :=
  ⟨(p, e) :: fs.entries⟩

/-- All nonempty initial segments of a path, shortest first: for
`["src", "main"]` this is `[["src"], ["src", "main"]]`. -/
def pathPrefixes (p : Path) : List Path :=
  (List.range p.length).map (fun i => p.take (i + 1))

/-- Whether an optional entry is a directory. -/
def isDirEntry : Option Entry → Bool
  | some Entry.dir => true
  | _ => false

/-- Whether an optional entry is a regular file. -/
def isFileEntry : Option Entry → Bool
  | some (Entry.file _) => true
  | _ => false

/-- Create every listed path that is missing as a directory, in order
(the creation loop inside `os.makedirs`). -/
def FS.mkdirAll (fs : FS) (ps : List Path) : FS :=
  ps.foldl (fun f q => if (f.lookup q).isSome then f else f.insert q Entry.dir) fs

/-- Model of `os.path.exists`: true when any entry, directory or file,
is present at the path. -/
def os_path_exists (fs : FS) (path : String) : Bool :=
  (fs.lookup (splitPath path)).isSome

/-- Model of `os.makedirs`: raises `FileExistsError` when the leaf already
exists, raises `NotADirectoryError` when a regular file occupies a segment
of the path, and otherwise creates every missing initial segment as a
directory. -/
def os_makedirs (fs : FS) (path : String) : Except String FS :=
  if (fs.lookup (splitPath path)).isSome then
    .error ("FileExistsError: " ++ path)
  else if (pathPrefixes (splitPath path)).any (fun q => isFileEntry (fs.lookup q)) then
    .error ("NotADirectoryError: " ++ path)
  else
    .ok (fs.mkdirAll (pathPrefixes (splitPath path)))

/-- `create_directory` from the script:
`if not os.path.exists(path): os.makedirs(path)`. -/
def create_directory (fs : FS) (path : String) : Except String FS :=
  if os_path_exists fs path then .ok fs else os_makedirs fs path

/-- `create_file` from the script:
`with open(path, 'w') as file: file.write(content)`.
Opening for writing requires every proper ancestor of the path to be an
existing directory and the path itself not to be a directory; on success
it truncates the file and writes exactly the given content. -/
def create_file (fs : FS) (path : String) (content : String := "") : Except String FS :=
  if (pathPrefixes (splitPath path).dropLast).all (fun q => isDirEntry (fs.lookup q)) then
    if isDirEntry (fs.lookup (splitPath path)) then .error ("IsADirectoryError: " ++ path)
    else .ok (fs.insert (splitPath path) (Entry.file content))
  else .error ("FileNotFoundError: " ++ path)

/-- The hard-coded directory list of `setup_project_structure`. -/
def base_dirs : List String :=
  ["src/main/config", "src/main/service", "src/main/controller",
   "src/main/resources", "src/test/resources"]

/-- The exact line printed on success. -/
def success_message : String :=
  "Flask Context Manager structure successfully created!"

/-- The `for dir in base_dirs: create_directory(dir)` loop, with Python
exception propagation made explicit: on the first failure the filesystem
at that moment is returned together with the error. -/
def runDirs (fs : FS) (ds : List String) : FS × Option String :=
  match ds with
  | [] => (fs, none)
  | d :: rest =>
    match create_directory fs d with
    | .ok f => runDirs f rest
    | .error e => (fs, some e)

/-- `setup_project_structure` from the script: the directory loop, the two
`create_file` calls with default (empty) content, then the success print,
returned as the produced stdout lines.  On an error the filesystem at the
failure point is returned and nothing is printed. -/
def setup_project_structure (fs : FS) : FS × Except String (List String) :=
  match runDirs fs base_dirs with
  | (f, some e) => (f, .error e)
  | (f, none) =>
    match create_file f "src/main/resources/config.ini" with
    | .error e => (f, .error e)
    | .ok f1 =>
      match create_file f1 "src/test/resources/config.ini" with
      | .error e => (f1, .error e)
      | .ok f2 => (f2, .ok [success_message])

/-- The accepted values of the positional `command` argument. -/
def choices : List String := ["start"]

/-- Representative first line of the auto-generated help text that
`argparse` prints to stdout on `-h`/`--help`; only the fact that help
goes to stdout with exit code 0 matters to the properties below. -/
def argparse_help_text : List String :=
  ["usage: flask_context_manager.py [-h] start"]

/-- Whether a token matches `argparse`'s negative-number pattern
`\d*\.\d+` after the minus sign (the fractional alternative). -/
def digitsDotDigits : List Char → Bool
  | [] => false
  | c :: rest =>
    if c = '.' then !rest.isEmpty && rest.all Char.isDigit
    else c.isDigit && digitsDotDigits rest

/-- Whether a token matches `argparse`'s negative-number pattern
(`-\d+` or `-\d*\.\d+`).  Since this parser has no option strings that
look like negative numbers, such tokens are treated as positionals. -/
def looksLikeNegNumber (s : String) : Bool :=
  match s.data with
  | '-' :: rest => (!rest.isEmpty && rest.all Char.isDigit) || digitsDotDigits rest
  | _ => false

/-- Whether `argparse` classifies a token as an optional: it begins with
`-`, has at least two characters, and does not look like a negative
number.  (`-` alone is a positional.) -/
def isOptionToken (s : String) : Bool :=
  decide (s.data.head? = some '-') && decide (2 ≤ s.data.length)
    && !(looksLikeNegNumber s)

/-- Result of the `argparse` layer: a parsed `command` value, an
auto-help exit (help on stdout, exit 0), or a usage error (usage on
stderr, exit 2). -/
inductive ParseOutcome where
  | cmd : String → ParseOutcome
  | helpRequested : ParseOutcome
  | usageErr : ParseOutcome
deriving DecidableEq

/-- Token scan after the `--` pseudo-argument: every remaining token is a
positional.  The first positional is the `command` and is checked against
`choices` immediately (a failure is a usage error); later positionals are
unrecognized extras, reported as a usage error at the end, as is a
missing `command`. -/
def parse_rest : List String → Option String → Bool → ParseOutcome
  | [], cmd0, extras =>
    match cmd0 with
    | some c => if extras then .usageErr else .cmd c
    | none => .usageErr
  | t :: rest, cmd0, extras =>
    match cmd0 with
    | none => if t ∈ choices then parse_rest rest (some t) extras else .usageErr
    | some _ => parse_rest rest cmd0 true

/-- Left-to-right token scan of the `argparse` layer before any `--`:
the first `--` is dropped and makes the remaining tokens positional;
`-h`/`--help` triggers the auto help (exit 0) when reached; other
option-like tokens are unrecognized extras (usage error at the end);
positional tokens are handled as in `parse_rest`.  Not modelled (and not
relied on by any theorem): long-option abbreviation such as `--hel` and
glued short options such as `-hx`. -/
def parse_scan : List String → Option String → Bool → ParseOutcome
  | [], cmd0, extras =>
    match cmd0 with
    | some c => if extras then .usageErr else .cmd c
    | none => .usageErr
  | t :: rest, cmd0, extras =>
    if t = "--" then parse_rest rest cmd0 extras
    else if t = "-h" ∨ t = "--help" then .helpRequested
    else if isOptionToken t then parse_scan rest cmd0 true
    else
      match cmd0 with
      | none => if t ∈ choices then parse_scan rest (some t) extras else .usageErr
      | some _ => parse_scan rest cmd0 true

/-- Model of the `argparse` layer: one positional `command` restricted to
`choices`, the auto-generated `-h`/`--help` option, and the `--`
positional separator. -/
def parse_args (argv : List String) : ParseOutcome :=
  parse_scan argv none false

/-- Outcome of one process run: scaffolding succeeded (exit 0, with its
stdout lines), an uncaught filesystem error (exit 1, traceback on
stderr), an argparse usage error (exit 2, usage text on stderr), or the
argparse auto help (exit 0, help text on stdout).  Each outcome carries
the final filesystem. -/
inductive MainResult where
  | scaffolded : FS → List String → MainResult
  | fsFailure : FS → String → MainResult
  | usage : FS → MainResult
  | helpShown : FS → MainResult
deriving DecidableEq

/-- `main` from the script: parse the arguments and, on `start`, run the
scaffolding routine.  A usage error or a help request never reaches the
routine. -/
def main (argv : List String) (fs : FS) : MainResult :=
  match parse_args argv with
  | .usageErr => .usage fs
  | .helpRequested => .helpShown fs
  | .cmd cmd =>
    if cmd = "start" then
      match setup_project_structure fs with
      | (f, .ok out) => .scaffolded f out
      | (f, .error e) => .fsFailure f e
    else .scaffolded fs []

/-- The process exit code of an outcome. -/
def exitCode : MainResult → Nat
  | .scaffolded _ _ => 0
  | .fsFailure _ _ => 1
  | .usage _ => 2
  | .helpShown _ => 0

/-- The stdout lines of an outcome. -/
def stdoutOf : MainResult → List String
  | .scaffolded _ out => out
  | .fsFailure _ _ => []
  | .usage _ => []
  | .helpShown _ => argparse_help_text

/-- Whether usage text was printed to stderr. -/
def stderrHasUsage : MainResult → Bool
  | .usage _ => true
  | _ => false

/-- The filesystem after the run. -/
def finalFS : MainResult → FS
  | .scaffolded f _ => f
  | .fsFailure f _ => f
  | .usage f => f
  | .helpShown f => f

/-- One observable call made by the orchestrator. -/
inductive Event where
  | mkdirCall : String → Event
  | writeCall : String → String → Event
  | printLine : String → Event
deriving DecidableEq

/-- The directory loop instrumented with the calls it makes, in order. -/
def runDirsTr (fs : FS) (ds : List String) : FS × List Event × Option String :=
  match ds with
  | [] => (fs, [], none)
  | d :: rest =>
    match create_directory fs d with
    | .error e => (fs, [Event.mkdirCall d], some e)
    | .ok f =>
      ((runDirsTr f rest).1, Event.mkdirCall d :: (runDirsTr f rest).2.1,
       (runDirsTr f rest).2.2)

/-- `setup_project_structure` instrumented with the calls it makes, in
the order it makes them; the print call is recorded last. -/
def setup_trace (fs : FS) : FS × List Event × Except String Unit :=
  match runDirsTr fs base_dirs with
  | (f, evs, some e) => (f, evs, .error e)
  | (f, evs, none) =>
    match create_file f "src/main/resources/config.ini" with
    | .error e => (f, evs ++ [Event.writeCall "src/main/resources/config.ini" ""], .error e)
    | .ok f1 =>
      match create_file f1 "src/test/resources/config.ini" with
      | .error e => (f1, evs ++ [Event.writeCall "src/main/resources/config.ini" "",
                                 Event.writeCall "src/test/resources/config.ini" ""], .error e)
      | .ok f2 => (f2, evs ++ [Event.writeCall "src/main/resources/config.ini" "",
                               Event.writeCall "src/test/resources/config.ini" "",
                               Event.printLine success_message], .ok ())

/-- The exact association list produced by a `start` run from the empty
working directory, most recent write first. -/
def scaffold_entries : List (Path × Entry) :=
  [(splitPath "src/test/resources/config.ini", Entry.file ""),
   (splitPath "src/main/resources/config.ini", Entry.file ""),
   (splitPath "src/test/resources", Entry.dir),
   (splitPath "src/test", Entry.dir),
   (splitPath "src/main/resources", Entry.dir),
   (splitPath "src/main/controller", Entry.dir),
   (splitPath "src/main/service", Entry.dir),
   (splitPath "src/main/config", Entry.dir),
   (splitPath "src/main", Entry.dir),
   (splitPath "src", Entry.dir)]

/-! ### General lemmas about the filesystem model -/

theorem FS.lookup_mk_cons (k : Path) (v : Entry) (es : List (Path × Entry)) (q : Path) :
    FS.lookup ⟨(k, v) :: es⟩ q = if k = q then some v else FS.lookup ⟨es⟩ q := by
  by_cases h : k = q <;> simp [FS.lookup, List.find?_cons, h]

theorem FS.lookup_isSome_iff (fs : FS) (q : Path) :
    (fs.lookup q).isSome = true ↔ q ∈ fs.entries.map Prod.fst := by
  rcases fs with ⟨es⟩
  induction es with
  | nil => simp [FS.lookup]
  | cons e es ih =>
    rcases e with ⟨k, v⟩
    rw [show FS.lookup ⟨(k, v) :: es⟩ q = if k = q then some v else FS.lookup ⟨es⟩ q from
      FS.lookup_mk_cons k v es q]
    by_cases h : k = q
    · subst h
      simp
    · have h' : q ≠ k := Ne.symm h
      simp only [if_neg h, List.map_cons, List.mem_cons]
      rw [ih]
      simp [h']

theorem FS.mkdirAll_cons (fs : FS) (a : Path) (ps : List Path) :
    fs.mkdirAll (a :: ps) =
      (if (fs.lookup a).isSome then fs else fs.insert a Entry.dir).mkdirAll ps := rfl

theorem FS.mkdirAll_preserve (fs : FS) (ps : List Path) (q : Path) (v : Entry)
    (h : fs.lookup q = some v) : (fs.mkdirAll ps).lookup q = some v := by
  induction ps generalizing fs with
  | nil => exact h
  | cons a rest ih =>
    rw [FS.mkdirAll_cons]
    by_cases ha : (FS.lookup fs a).isSome
    · rw [if_pos ha]; exact ih fs h
    · rw [if_neg ha]
      apply ih
      show FS.lookup ⟨(a, Entry.dir) :: fs.entries⟩ q = some v
      rw [FS.lookup_mk_cons]
      by_cases haq : a = q
      · subst haq; rw [h] at ha; simp at ha
      · rw [if_neg haq]; exact h

theorem FS.mkdirAll_lookup_of_not_mem (fs : FS) (ps : List Path) (q : Path)
    (hq : q ∉ ps) : (fs.mkdirAll ps).lookup q = fs.lookup q := by
  induction ps generalizing fs with
  | nil => rfl
  | cons a rest ih =>
    rw [FS.mkdirAll_cons]
    have hqa : q ∉ rest := fun h => hq (List.mem_cons_of_mem _ h)
    by_cases ha : (FS.lookup fs a).isSome
    · rw [if_pos ha]; exact ih fs hqa
    · rw [if_neg ha, ih _ hqa]
      show FS.lookup ⟨(a, Entry.dir) :: fs.entries⟩ q = FS.lookup fs q
      have hne : a ≠ q := by
        intro h
        exact hq (by rw [← h]; exact List.mem_cons_self a rest)
      rw [FS.lookup_mk_cons, if_neg hne]

theorem FS.mkdirAll_lookup_of_mem (fs : FS) (ps : List Path)
    (hnf : ∀ q ∈ ps, isFileEntry (fs.lookup q) = false) :
    ∀ q ∈ ps, (fs.mkdirAll ps).lookup q = some Entry.dir := by
  induction ps generalizing fs with
  | nil => intro q hq; cases hq
  | cons a rest ih =>
    intro q hq
    rw [FS.mkdirAll_cons]
    by_cases ha : (FS.lookup fs a).isSome
    · have hdir : FS.lookup fs a = some Entry.dir := by
        rcases Option.isSome_iff_exists.mp ha with ⟨e, he⟩
        cases e with
        | dir => exact he
        | file c =>
          have := hnf a (List.mem_cons_self a rest)
          rw [he] at this
          simp [isFileEntry] at this
      rw [if_pos ha]
      rcases List.mem_cons.mp hq with rfl | hq'
      · exact FS.mkdirAll_preserve fs rest q Entry.dir hdir
      · exact ih fs (fun r hr => hnf r (List.mem_cons_of_mem _ hr)) q hq'
    · rw [if_neg ha]
      have hlook : ∀ r : Path, FS.lookup (fs.insert a Entry.dir) r =
          if a = r then some Entry.dir else FS.lookup fs r := by
        intro r
        exact FS.lookup_mk_cons a Entry.dir fs.entries r
      have hnf' : ∀ r ∈ rest, isFileEntry (FS.lookup (fs.insert a Entry.dir) r) = false := by
        intro r hr
        rw [hlook r]
        by_cases har : a = r
        · rw [if_pos har]; rfl
        · rw [if_neg har]; exact hnf r (List.mem_cons_of_mem _ hr)
      rcases List.mem_cons.mp hq with rfl | hq'
      · refine FS.mkdirAll_preserve _ rest q Entry.dir ?_
        rw [hlook q, if_pos rfl]
      · exact ih _ hnf' q hq'

/-! ### Lemmas about the script's helpers -/

theorem splitPathAux_ne_nil (cs acc : List Char) : splitPathAux cs acc ≠ [] := by
  induction cs generalizing acc with
  | nil => simp [splitPathAux]
  | cons c cs ih =>
    by_cases h : c = '/'
    · simp [splitPathAux, h]
    · simpa [splitPathAux, h] using ih (c :: acc)

theorem splitPath_ne_nil (s : String) : splitPath s ≠ [] :=
  splitPathAux_ne_nil s.data []

theorem self_mem_pathPrefixes (p : Path) (h : p ≠ []) : p ∈ pathPrefixes p := by
  have hl : 0 < p.length := List.length_pos.mpr h
  unfold pathPrefixes
  refine List.mem_map.mpr ⟨p.length - 1, List.mem_range.mpr (by omega), ?_⟩
  rw [Nat.sub_add_cancel hl, List.take_length]

theorem create_directory_of_exists (fs : FS) (path : String)
    (h : (fs.lookup (splitPath path)).isSome) : create_directory fs path = .ok fs := by
  unfold create_directory os_path_exists
  rw [if_pos h]

theorem create_directory_ok_inv (fs : FS) (path : String) (g : FS)
    (h : create_directory fs path = .ok g) :
    ((fs.lookup (splitPath path)).isSome ∧ g = fs)
    ∨ ((fs.lookup (splitPath path)).isSome = false
       ∧ (pathPrefixes (splitPath path)).any (fun q => isFileEntry (fs.lookup q)) = false
       ∧ g = fs.mkdirAll (pathPrefixes (splitPath path))) := by
  unfold create_directory os_path_exists at h
  by_cases he : (FS.lookup fs (splitPath path)).isSome
  · rw [if_pos he] at h
    injection h with h
    exact Or.inl ⟨he, h.symm⟩
  · rw [if_neg he] at h
    unfold os_makedirs at h
    rw [if_neg he] at h
    by_cases hf : (pathPrefixes (splitPath path)).any (fun q => isFileEntry (FS.lookup fs q))
    · rw [if_pos hf] at h
      exact Except.noConfusion h
    · rw [if_neg hf] at h
      injection h with h
      exact Or.inr ⟨Bool.eq_false_iff.mpr he, Bool.eq_false_iff.mpr hf, h.symm⟩

theorem create_directory_preserve_some (fs : FS) (path : String) (g : FS)
    (h : create_directory fs path = .ok g) (q : Path) (v : Entry)
    (hq : fs.lookup q = some v) : g.lookup q = some v := by
  rcases create_directory_ok_inv fs path g h with ⟨_, rfl⟩ | ⟨_, _, rfl⟩
  · exact hq
  · exact FS.mkdirAll_preserve _ _ _ _ hq

theorem create_directory_ok_self (fs : FS) (path : String) (g : FS)
    (h : create_directory fs path = .ok g) : (g.lookup (splitPath path)).isSome := by
  rcases create_directory_ok_inv fs path g h with ⟨he, rfl⟩ | ⟨hn, hnf, rfl⟩
  · exact he
  · have hnof : ∀ q ∈ pathPrefixes (splitPath path), isFileEntry (FS.lookup fs q) = false := by
      intro q hq
      have := (List.any_eq_false).mp hnf q hq
      simpa using this
    have hmem := self_mem_pathPrefixes (splitPath path) (splitPath_ne_nil path)
    rw [FS.mkdirAll_lookup_of_mem fs _ hnof _ hmem]
    rfl

theorem runDirs_preserve_some (ds : List String) (fs : FS) (g : FS) (r : Option String)
    (h : runDirs fs ds = (g, r)) (q : Path) (v : Entry)
    (hq : fs.lookup q = some v) : g.lookup q = some v := by
  induction ds generalizing fs with
  | nil =>
    rw [runDirs] at h
    cases h
    exact hq
  | cons a rest ih =>
    rw [runDirs] at h
    cases hc : create_directory fs a with
    | error e => rw [hc] at h; cases h; exact hq
    | ok f =>
      rw [hc] at h
      exact ih f h (create_directory_preserve_some fs a f hc q v hq)

theorem runDirs_ok_exists (ds : List String) (fs : FS) (g : FS)
    (h : runDirs fs ds = (g, none)) :
    ∀ d ∈ ds, (g.lookup (splitPath d)).isSome := by
  induction ds generalizing fs with
  | nil => intro d hd; cases hd
  | cons a rest ih =>
    intro d hd
    rw [runDirs] at h
    cases hc : create_directory fs a with
    | error e => rw [hc] at h; cases h
    | ok f =>
      rw [hc] at h
      rcases List.mem_cons.mp hd with rfl | hd'
      · rcases Option.isSome_iff_exists.mp (create_directory_ok_self fs d f hc) with ⟨v, hv⟩
        exact Option.isSome_iff_exists.mpr ⟨v, runDirs_preserve_some rest f g none h _ v hv⟩
      · exact ih f h d hd'

theorem create_file_ok_inv (fs : FS) (path content : String) (f : FS)
    (h : create_file fs path content = .ok f) :
    (pathPrefixes (splitPath path).dropLast).all (fun q => isDirEntry (fs.lookup q)) = true
    ∧ isDirEntry (fs.lookup (splitPath path)) = false
    ∧ f = ⟨(splitPath path, Entry.file content) :: fs.entries⟩ := by
  unfold create_file at h
  by_cases h1 : (pathPrefixes (splitPath path).dropLast).all (fun q => isDirEntry (FS.lookup fs q))
  · rw [if_pos h1] at h
    by_cases h2 : isDirEntry (FS.lookup fs (splitPath path))
    · rw [if_pos h2] at h
      exact Except.noConfusion h
    · rw [if_neg h2] at h
      injection h with h
      exact ⟨h1, Bool.eq_false_iff.mpr h2, h.symm⟩
  · rw [if_neg h1] at h
    exact Except.noConfusion h

theorem create_file_preserve (fs : FS) (path content : String) (f : FS)
    (h : create_file fs path content = .ok f) :
    (∀ q : Path, (fs.lookup q).isSome = true → (f.lookup q).isSome = true)
    ∧ (∀ q : Path, fs.lookup q = some Entry.dir → f.lookup q = some Entry.dir) := by
  rcases create_file_ok_inv fs path content f h with ⟨h1, h2, rfl⟩
  constructor
  · intro q hq
    rw [FS.lookup_mk_cons]
    by_cases he : splitPath path = q
    · rw [if_pos he]
      rfl
    · rw [if_neg he]
      exact hq
  · intro q hq
    rw [FS.lookup_mk_cons]
    by_cases he : splitPath path = q
    · exfalso
      rw [← he] at hq
      rw [hq] at h2
      simp [isDirEntry] at h2
    · rw [if_neg he]
      exact hq

theorem setup_preserve (fs g : FS) (r : Except String (List String))
    (h : setup_project_structure fs = (g, r)) :
    (∀ q : Path, (fs.lookup q).isSome = true → (g.lookup q).isSome = true)
    ∧ (∀ q : Path, fs.lookup q = some Entry.dir → g.lookup q = some Entry.dir) := by
  unfold setup_project_structure at h
  rcases hrd : runDirs fs base_dirs with ⟨f0, r0⟩
  rw [hrd] at h
  have hp0some : ∀ q : Path, (fs.lookup q).isSome = true → (f0.lookup q).isSome = true := by
    intro q hq
    rcases Option.isSome_iff_exists.mp hq with ⟨v, hv⟩
    exact Option.isSome_iff_exists.mpr
      ⟨v, runDirs_preserve_some base_dirs fs f0 r0 hrd q v hv⟩
  have hp0dir : ∀ q : Path, fs.lookup q = some Entry.dir → f0.lookup q = some Entry.dir :=
    fun q hq => runDirs_preserve_some base_dirs fs f0 r0 hrd q Entry.dir hq
  cases r0 with
  | some e =>
    injection h with h1 h2
    subst h1
    exact ⟨hp0some, hp0dir⟩
  | none =>
    dsimp only [] at h
    cases hc1 : create_file f0 "src/main/resources/config.ini" with
    | error e1 =>
      rw [hc1] at h
      injection h with h1 h2
      subst h1
      exact ⟨hp0some, hp0dir⟩
    | ok f1 =>
      rw [hc1] at h
      dsimp only [] at h
      obtain ⟨hs1, hd1⟩ := create_file_preserve f0 _ _ f1 hc1
      cases hc2 : create_file f1 "src/test/resources/config.ini" with
      | error e2 =>
        rw [hc2] at h
        injection h with h1 h2
        subst h1
        exact ⟨fun q hq => hs1 q (hp0some q hq), fun q hq => hd1 q (hp0dir q hq)⟩
      | ok f2 =>
        rw [hc2] at h
        obtain ⟨hs2, hd2⟩ := create_file_preserve f1 _ _ f2 hc2
        injection h with h1 h2
        subst h1
        exact ⟨fun q hq => hs2 q (hs1 q (hp0some q hq)),
               fun q hq => hd2 q (hd1 q (hp0dir q hq))⟩

/-! ### Claim theorems -/

/-- C1: a `start` run against a writable, empty working directory produces
exactly the listed tree — the five listed directories (plus the ancestor
directories the listing implies) and the two zero-length `config.ini`
files, nothing else — prints exactly the success line on stdout, and exits
with code 0. -/
theorem C1_start_on_empty_dir :
    main ["start"] FS.empty = MainResult.scaffolded ⟨scaffold_entries⟩ [success_message]
    ∧ exitCode (main ["start"] FS.empty) = 0
    ∧ stdoutOf (main ["start"] FS.empty) = [success_message]
    ∧ (∀ d ∈ base_dirs,
        (finalFS (main ["start"] FS.empty)).lookup (splitPath d) = some Entry.dir)
    ∧ (finalFS (main ["start"] FS.empty)).lookup (splitPath "src/main/resources/config.ini")
        = some (Entry.file "")
    ∧ (finalFS (main ["start"] FS.empty)).lookup (splitPath "src/test/resources/config.ini")
        = some (Entry.file "")
    ∧ ∀ q : Path, ((finalFS (main ["start"] FS.empty)).lookup q).isSome = true ↔
        q ∈ scaffold_entries.map Prod.fst := by
  refine ⟨rfl, rfl, rfl, by decide, rfl, rfl, ?_⟩
  intro q
  have h : finalFS (main ["start"] FS.empty) = ⟨scaffold_entries⟩ := rfl
  rw [h]
  exact FS.lookup_isSome_iff ⟨scaffold_entries⟩ q

/-- C5: `create_directory` checks for existence; when the path is already
present (as any entry) it changes nothing and succeeds, and when the path
is absent a successful call has created the directory together with every
missing ancestor, touching no other path. -/
theorem C5_create_directory_contract (fs : FS) (path : String) (f : FS)
    (h : create_directory fs path = .ok f) :
    ((fs.lookup (splitPath path)).isSome = true → f = fs)
    ∧ (fs.lookup (splitPath path) = none →
        (∀ q ∈ pathPrefixes (splitPath path), f.lookup q = some Entry.dir)
        ∧ (∀ q : Path, q ∉ pathPrefixes (splitPath path) → f.lookup q = fs.lookup q)) := by
  constructor
  · intro he
    rcases create_directory_ok_inv fs path f h with ⟨_, rfl⟩ | ⟨hn, _, _⟩
    · rfl
    · rw [he] at hn
      cases hn
  · intro hnone
    rcases create_directory_ok_inv fs path f h with ⟨he, rfl⟩ | ⟨hn, hnf, rfl⟩
    · rw [hnone] at he
      cases he
    · have hnof : ∀ q ∈ pathPrefixes (splitPath path), isFileEntry (FS.lookup fs q) = false := by
        intro q hq
        simpa using (List.any_eq_false).mp hnf q hq
      exact ⟨FS.mkdirAll_lookup_of_mem fs _ hnof,
             fun q hq => FS.mkdirAll_lookup_of_not_mem fs _ q hq⟩

/-- Witness for C5: creating `src/main` in an empty directory creates both
`src/main` and the missing ancestor `src`, and leaves an unrelated path
untouched. -/
theorem C5_create_directory_contract_witness :
    FS.lookup ⟨[(["src", "main"], Entry.dir), (["src"], Entry.dir)]⟩ ["src", "main"]
      = some Entry.dir
    ∧ FS.lookup ⟨[(["src", "main"], Entry.dir), (["src"], Entry.dir)]⟩ ["other"]
      = FS.lookup FS.empty ["other"] :=
  ⟨((C5_create_directory_contract FS.empty "src/main"
      ⟨[(["src", "main"], Entry.dir), (["src"], Entry.dir)]⟩ rfl).2 rfl).1
    ["src", "main"] (by decide),
   ((C5_create_directory_contract FS.empty "src/main"
      ⟨[(["src", "main"], Entry.dir), (["src"], Entry.dir)]⟩ rfl).2 rfl).2
    ["other"] (by decide)⟩

/-- C6: on success, `create_file` leaves the file at the path holding
exactly the given content — any previous content at that path is silently
overwritten, with no backup entry — and no other path is changed; the new
state is exactly the old one with the written pair in front. -/
theorem C6_create_file_contract (fs : FS) (path content : String) (f : FS)
    (h : create_file fs path content = .ok f) :
    f.lookup (splitPath path) = some (Entry.file content)
    ∧ (∀ q : Path, q ≠ splitPath path → f.lookup q = fs.lookup q)
    ∧ f.entries = (splitPath path, Entry.file content) :: fs.entries := by
  rcases create_file_ok_inv fs path content f h with ⟨h1, h2, rfl⟩
  refine ⟨?_, ?_, rfl⟩
  · rw [FS.lookup_mk_cons, if_pos rfl]
  · intro q hq
    rw [FS.lookup_mk_cons, if_neg (fun he => hq he.symm)]

/-- Witness for C6: overwriting an existing `src/a.txt` that held `"old"`
with `"new"` leaves exactly `"new"` there and the directory `src`
untouched. -/
theorem C6_create_file_contract_witness :
    FS.lookup ⟨[(["src", "a.txt"], Entry.file "new"),
                (["src", "a.txt"], Entry.file "old"), (["src"], Entry.dir)]⟩ ["src", "a.txt"]
      = some (Entry.file "new")
    ∧ FS.lookup ⟨[(["src", "a.txt"], Entry.file "new"),
                  (["src", "a.txt"], Entry.file "old"), (["src"], Entry.dir)]⟩ ["src"]
      = FS.lookup ⟨[(["src", "a.txt"], Entry.file "old"), (["src"], Entry.dir)]⟩ ["src"] :=
  ⟨(C6_create_file_contract ⟨[(["src", "a.txt"], Entry.file "old"), (["src"], Entry.dir)]⟩
      "src/a.txt" "new" _ rfl).1,
   (C6_create_file_contract ⟨[(["src", "a.txt"], Entry.file "old"), (["src"], Entry.dir)]⟩
      "src/a.txt" "new" _ rfl).2.1 ["src"] (by decide)⟩

/-- C9: when the parent directory of the path does not exist, `create_file`
fails with a filesystem error instead of creating the parent or silently
succeeding. -/
theorem C9_create_file_missing_parent (fs : FS) (path content : String)
    (hlen : 2 ≤ (splitPath path).length)
    (hmiss : fs.lookup (splitPath path).dropLast = none) :
    create_file fs path content = .error ("FileNotFoundError: " ++ path) := by
  have hnil : (splitPath path).dropLast ≠ [] := by
    apply List.length_pos.mp
    rw [List.length_dropLast]
    omega
  have hmem := self_mem_pathPrefixes _ hnil
  have hfalse : ¬ ((pathPrefixes (splitPath path).dropLast).all
      (fun q => isDirEntry (FS.lookup fs q)) = true) := by
    intro hall
    have hd := List.all_eq_true.mp hall _ hmem
    rw [hmiss] at hd
    cases hd
  unfold create_file
  rw [if_neg hfalse]

/-- Witness for C9: writing `src/config.ini` in an empty directory fails,
because the parent `src` does not exist. -/
theorem C9_create_file_missing_parent_witness :
    2 ≤ (splitPath "src/config.ini").length
    ∧ create_file FS.empty "src/config.ini" "x"
        = .error ("FileNotFoundError: " ++ "src/config.ini") :=
  ⟨by decide, C9_create_file_missing_parent FS.empty "src/config.ini" "x" (by decide) rfl⟩

theorem parse_scan_cons_dashfree (t : String) (rest : List String) (cmd0 : Option String)
    (extras : Bool) (ht : t.data.head? ≠ some '-') :
    parse_scan (t :: rest) cmd0 extras =
      match cmd0 with
      | none => if t ∈ choices then parse_scan rest (some t) extras else ParseOutcome.usageErr
      | some _ => parse_scan rest cmd0 true := by
  have h1 : t ≠ "--" := fun he => ht (by rw [he]; rfl)
  have h2 : ¬ (t = "-h" ∨ t = "--help") := by
    rintro (rfl | rfl)
    · exact ht rfl
    · exact ht rfl
  have h3 : isOptionToken t = false := by
    unfold isOptionToken
    rw [decide_eq_false ht]
    rfl
  rw [parse_scan.eq_def]
  dsimp only []
  rw [if_neg h1, if_neg h2, h3]
  rw [if_neg (by simp)]

theorem parse_scan_extras_usage (ts : List String)
    (h : ∀ t ∈ ts, t.data.head? ≠ some '-') (c : String) :
    parse_scan ts (some c) true = ParseOutcome.usageErr := by
  induction ts with
  | nil => rfl
  | cons t rest ih =>
    rw [parse_scan_cons_dashfree t rest (some c) true (h t (List.mem_cons_self t rest))]
    exact ih (fun r hr => h r (List.mem_cons_of_mem _ hr))

/-- Counterexample to C7 as stated: `["-h"]` has no positional command
token, yet the argument-parsing layer does not print usage to stderr and
exit nonzero — it prints the auto-generated help to stdout and exits 0;
and `["--", "start"]`, an argument vector other than `["start"]`, is not
rejected at all: the `--` separator makes `start` positional, the
orchestrator runs, and the filesystem is changed with exit code 0. -/
theorem C7_counterexample_help_and_separator :
    main ["-h"] FS.empty = MainResult.helpShown FS.empty
    ∧ exitCode (main ["-h"] FS.empty) = 0
    ∧ stdoutOf (main ["-h"] FS.empty) = argparse_help_text
    ∧ stderrHasUsage (main ["-h"] FS.empty) = false
    ∧ finalFS (main ["-h"] FS.empty) = FS.empty
    ∧ main ["--", "start"] FS.empty
        = MainResult.scaffolded ⟨scaffold_entries⟩ [success_message]
    ∧ exitCode (main ["--", "start"] FS.empty) = 0 :=
  ⟨rfl, rfl, rfl, rfl, rfl, rfl, rfl⟩

/-- C7 amended: for every argument vector free of option-like tokens (no
token begins with `-`, so neither the auto help nor the `--` separator is
involved) that is not exactly `["start"]`, the argument-parsing layer
rejects the invocation: usage goes to stderr, the exit code is 2
(nonzero), nothing is printed to stdout, the filesystem is left
unchanged, and the orchestrator never runs.  Separately, `["-h"]` and
`["--help"]` print help to stdout and exit 0 without touching the
filesystem, and `["--", "start"]` behaves exactly like `["start"]`. -/
theorem C7_amended_usage_error (argv : List String) (fs : FS)
    (h1 : ∀ t ∈ argv, t.data.head? ≠ some '-') (h2 : argv ≠ ["start"]) :
    (main argv fs = MainResult.usage fs
     ∧ exitCode (main argv fs) = 2
     ∧ exitCode (main argv fs) ≠ 0
     ∧ stdoutOf (main argv fs) = []
     ∧ stderrHasUsage (main argv fs) = true
     ∧ finalFS (main argv fs) = fs)
    ∧ main ["-h"] fs = MainResult.helpShown fs
    ∧ main ["--help"] fs = MainResult.helpShown fs
    ∧ exitCode (MainResult.helpShown fs) = 0
    ∧ finalFS (MainResult.helpShown fs) = fs
    ∧ main ["--", "start"] fs = main ["start"] fs := by
  have hp : parse_args argv = ParseOutcome.usageErr := by
    cases argv with
    | nil => rfl
    | cons t1 rest =>
      have ht1 : t1.data.head? ≠ some '-' := h1 t1 (List.mem_cons_self _ _)
      unfold parse_args
      rw [parse_scan_cons_dashfree t1 rest none false ht1]
      dsimp only []
      by_cases hc : t1 ∈ choices
      · have ht1s : t1 = "start" := by simpa [choices] using hc
        subst ht1s
        cases rest with
        | nil => exact absurd rfl h2
        | cons t2 rest2 =>
          rw [if_pos hc]
          rw [parse_scan_cons_dashfree t2 rest2 (some "start") false
            (h1 t2 (List.mem_cons_of_mem _ (List.mem_cons_self _ _)))]
          exact parse_scan_extras_usage rest2
            (fun r hr => h1 r (List.mem_cons_of_mem _ (List.mem_cons_of_mem _ hr))) "start"
      · rw [if_neg hc]
  have hm : main argv fs = MainResult.usage fs := by
    unfold main
    rw [hp]
  exact ⟨⟨hm, by rw [hm]; rfl, by rw [hm]; simp [exitCode], by rw [hm]; rfl,
    by rw [hm]; rfl, by rw [hm]; rfl⟩, rfl, rfl, rfl, rfl, rfl⟩

/-- Witness for C7's amended statement: `stop` is rejected with exit
code 2, usage on stderr, and no filesystem change. -/
theorem C7_amended_witness :
    (main ["stop"] FS.empty = MainResult.usage FS.empty
     ∧ exitCode (main ["stop"] FS.empty) = 2
     ∧ exitCode (main ["stop"] FS.empty) ≠ 0
     ∧ stdoutOf (main ["stop"] FS.empty) = []
     ∧ stderrHasUsage (main ["stop"] FS.empty) = true
     ∧ finalFS (main ["stop"] FS.empty) = FS.empty)
    ∧ main ["-h"] FS.empty = MainResult.helpShown FS.empty
    ∧ main ["--help"] FS.empty = MainResult.helpShown FS.empty
    ∧ exitCode (MainResult.helpShown FS.empty) = 0
    ∧ finalFS (MainResult.helpShown FS.empty) = FS.empty
    ∧ main ["--", "start"] FS.empty = main ["start"] FS.empty :=
  C7_amended_usage_error ["stop"] FS.empty (by decide) (by decide)

/-- C10 (implicit): when any entry — including a regular file — already
exists at the path, `create_directory` raises no error and performs no
filesystem operation, because `os.path.exists` does not distinguish entry
kinds; consequently a regular file occupying the target path
`src/main/config` does not by itself abort a `start` run, which still
exits 0 and prints the success line. -/
theorem C10_existing_entry_skips_creation (fs : FS) (path : String) (e : Entry)
    (h : fs.lookup (splitPath path) = some e) :
    create_directory fs path = .ok fs
    ∧ exitCode (main ["start"] ⟨[(splitPath "src/main/config", Entry.file "occupied"),
          (splitPath "src/main", Entry.dir), (splitPath "src", Entry.dir)]⟩) = 0
    ∧ stdoutOf (main ["start"] ⟨[(splitPath "src/main/config", Entry.file "occupied"),
          (splitPath "src/main", Entry.dir), (splitPath "src", Entry.dir)]⟩)
        = [success_message] :=
  ⟨create_directory_of_exists fs path (by rw [h]; rfl), rfl, rfl⟩

/-- Witness for C10: with a regular file sitting at `src/main/config`,
`create_directory` succeeds without touching anything, and the whole
`start` run still exits 0 with the success line. -/
theorem C10_existing_entry_skips_creation_witness :
    create_directory ⟨[(splitPath "src/main/config", Entry.file "occupied"),
        (splitPath "src/main", Entry.dir), (splitPath "src", Entry.dir)]⟩ "src/main/config"
      = .ok ⟨[(splitPath "src/main/config", Entry.file "occupied"),
        (splitPath "src/main", Entry.dir), (splitPath "src", Entry.dir)]⟩
    ∧ exitCode (main ["start"] ⟨[(splitPath "src/main/config", Entry.file "occupied"),
          (splitPath "src/main", Entry.dir), (splitPath "src", Entry.dir)]⟩) = 0
    ∧ stdoutOf (main ["start"] ⟨[(splitPath "src/main/config", Entry.file "occupied"),
          (splitPath "src/main", Entry.dir), (splitPath "src", Entry.dir)]⟩)
        = [success_message] :=
  C10_existing_entry_skips_creation
    ⟨[(splitPath "src/main/config", Entry.file "occupied"),
      (splitPath "src/main", Entry.dir), (splitPath "src", Entry.dir)]⟩
    "src/main/config" (Entry.file "occupied") rfl

/-- Counterexample to C2 as stated: with a regular file occupying
`src/main/config`, `create_directory` on that path does not fail — it
succeeds and changes nothing, because the existence check is satisfied by
the file. -/
theorem C2_counterexample_no_failure_on_file :
    create_directory ⟨[(splitPath "src", Entry.dir), (splitPath "src/main", Entry.dir),
        (splitPath "src/main/config", Entry.file "occupied")]⟩ "src/main/config"
      = .ok ⟨[(splitPath "src", Entry.dir), (splitPath "src/main", Entry.dir),
        (splitPath "src/main/config", Entry.file "occupied")]⟩
    ∧ ¬ ∃ e : String,
        create_directory ⟨[(splitPath "src", Entry.dir), (splitPath "src/main", Entry.dir),
          (splitPath "src/main/config", Entry.file "occupied")]⟩ "src/main/config"
        = .error e := by
  constructor
  · rfl
  · rintro ⟨e, he⟩
    rw [show create_directory ⟨[(splitPath "src", Entry.dir), (splitPath "src/main", Entry.dir),
        (splitPath "src/main/config", Entry.file "occupied")]⟩ "src/main/config"
      = .ok ⟨[(splitPath "src", Entry.dir), (splitPath "src/main", Entry.dir),
        (splitPath "src/main/config", Entry.file "occupied")]⟩ from rfl] at he
    exact Except.noConfusion he

/-- C2 amended: `create_directory` on a path at which a regular file
already exists succeeds with no filesystem change (the existence check
does not distinguish entry kinds); it fails with an uncaught error when
the path is absent and a regular file occupies one of the path's
ancestors. -/
theorem C2_amended_create_directory_failure_modes (fs : FS) (path : String) :
    (∀ c : String, fs.lookup (splitPath path) = some (Entry.file c) →
        create_directory fs path = .ok fs)
    ∧ (fs.lookup (splitPath path) = none →
        ∀ q ∈ pathPrefixes (splitPath path), ∀ c : String,
          fs.lookup q = some (Entry.file c) →
          create_directory fs path = .error ("NotADirectoryError: " ++ path)) := by
  constructor
  · intro c hc
    exact create_directory_of_exists fs path (by rw [hc]; rfl)
  · intro hnone q hq c hc
    have hiss : ¬ ((FS.lookup fs (splitPath path)).isSome = true) := by
      rw [hnone]
      simp
    have hany : (pathPrefixes (splitPath path)).any
        (fun r => isFileEntry (FS.lookup fs r)) = true :=
      List.any_eq_true.mpr ⟨q, hq, by rw [hc]; rfl⟩
    unfold create_directory os_path_exists os_makedirs
    rw [if_neg hiss, if_neg hiss, if_pos hany]

/-- Witness for C2's amended statement: a regular file at `src` makes
`create_directory` of the absent `src/main` fail with an error. -/
theorem C2_amended_witness :
    create_directory ⟨[(splitPath "src", Entry.file "x")]⟩ "src/main"
      = .error ("NotADirectoryError: " ++ "src/main") :=
  (C2_amended_create_directory_failure_modes
    ⟨[(splitPath "src", Entry.file "x")]⟩ "src/main").2 rfl ["src"] (by decide) "x" rfl

/-- Counterexample to C3 as stated: a regular file occupies the target
path `src/main/config` (so that directory cannot be created), yet the
`start` run does not fail — it exits 0 and prints the success line. -/
theorem C3_counterexample_file_at_target_still_succeeds :
    FS.lookup ⟨[(splitPath "src", Entry.dir), (splitPath "src/main", Entry.dir),
        (splitPath "src/main/config", Entry.file "blocker")]⟩ (splitPath "src/main/config")
      = some (Entry.file "blocker")
    ∧ exitCode (main ["start"] ⟨[(splitPath "src", Entry.dir),
        (splitPath "src/main", Entry.dir),
        (splitPath "src/main/config", Entry.file "blocker")]⟩) = 0
    ∧ stdoutOf (main ["start"] ⟨[(splitPath "src", Entry.dir),
        (splitPath "src/main", Entry.dir),
        (splitPath "src/main/config", Entry.file "blocker")]⟩) = [success_message] :=
  ⟨rfl, rfl, rfl⟩

/-- C3 amended: whenever a `start` run fails with an uncaught filesystem
error (as happens when a regular file occupies an ancestor of one of the
absent target directories), it fails before printing the success line,
the exit code is nonzero, and everything present at the start of the run
— in particular every directory created earlier — remains on disk: no
entry is deleted and no directory is overwritten (no rollback). -/
theorem C3_amended_failure_aborts_without_rollback (fs f : FS) (e : String)
    (h : main ["start"] fs = MainResult.fsFailure f e) :
    stdoutOf (main ["start"] fs) = []
    ∧ exitCode (main ["start"] fs) ≠ 0
    ∧ (∀ q : Path, (fs.lookup q).isSome = true → (f.lookup q).isSome = true)
    ∧ (∀ q : Path, fs.lookup q = some Entry.dir → f.lookup q = some Entry.dir) := by
  have h' : (match setup_project_structure fs with
      | (g, Except.ok out) => MainResult.scaffolded g out
      | (g, Except.error e') => MainResult.fsFailure g e') = MainResult.fsFailure f e := h
  have hs : setup_project_structure fs = (f, Except.error e) := by
    rcases hst : setup_project_structure fs with ⟨g, r⟩
    rw [hst] at h'
    cases r with
    | ok out => exact MainResult.noConfusion h'
    | error e' =>
      injection h' with h1 h2
      subst h1
      subst h2
      rfl
  obtain ⟨hsome, hdir⟩ := setup_preserve fs f (Except.error e) hs
  exact ⟨by rw [h]; rfl, by rw [h]; simp [exitCode], hsome, hdir⟩

/-- Witness for C3's amended statement: a regular file at `src/test`
makes the fifth directory step fail; the run prints nothing, exits
nonzero, and the earlier-created directories (here `src`) survive. -/
theorem C3_amended_witness : stdoutOf (main ["start"] ⟨[(splitPath "src", Entry.dir),
      (splitPath "src/test", Entry.file "blocker")]⟩) = []
    ∧ exitCode (main ["start"] ⟨[(splitPath "src", Entry.dir),
        (splitPath "src/test", Entry.file "blocker")]⟩) ≠ 0
    ∧ (FS.lookup ⟨[(splitPath "src/main/resources", Entry.dir),
        (splitPath "src/main/controller", Entry.dir), (splitPath "src/main/service", Entry.dir),
        (splitPath "src/main/config", Entry.dir), (splitPath "src/main", Entry.dir),
        (splitPath "src", Entry.dir), (splitPath "src/test", Entry.file "blocker")]⟩
        (splitPath "src")).isSome = true
    ∧ FS.lookup ⟨[(splitPath "src/main/resources", Entry.dir),
        (splitPath "src/main/controller", Entry.dir), (splitPath "src/main/service", Entry.dir),
        (splitPath "src/main/config", Entry.dir), (splitPath "src/main", Entry.dir),
        (splitPath "src", Entry.dir), (splitPath "src/test", Entry.file "blocker")]⟩
        (splitPath "src") = some Entry.dir := by
  have h := C3_amended_failure_aborts_without_rollback
    ⟨[(splitPath "src", Entry.dir), (splitPath "src/test", Entry.file "blocker")]⟩
    ⟨[(splitPath "src/main/resources", Entry.dir),
      (splitPath "src/main/controller", Entry.dir), (splitPath "src/main/service", Entry.dir),
      (splitPath "src/main/config", Entry.dir), (splitPath "src/main", Entry.dir),
      (splitPath "src", Entry.dir), (splitPath "src/test", Entry.file "blocker")]⟩
    ("NotADirectoryError: " ++ "src/test/resources") rfl
  exact ⟨h.1, h.2.1, h.2.2.1 (splitPath "src") rfl, h.2.2.2 (splitPath "src") rfl⟩

theorem runDirsTr_none_agree (ds : List String) :
    ∀ (fs g : FS) (evs : List Event), runDirsTr fs ds = (g, evs, none) →
      runDirs fs ds = (g, none) ∧ evs = ds.map Event.mkdirCall := by
  induction ds with
  | nil =>
    intro fs g evs h
    rw [runDirsTr] at h
    simp only [Prod.mk.injEq] at h
    obtain ⟨rfl, rfl, -⟩ := h
    exact ⟨rfl, rfl⟩
  | cons a rest ih =>
    intro fs g evs h
    rw [runDirsTr] at h
    cases hc : create_directory fs a with
    | error e =>
      rw [hc] at h
      simp at h
    | ok f =>
      rw [hc] at h
      dsimp only [] at h
      rcases htr : runDirsTr f rest with ⟨g', evs', r'⟩
      rw [htr] at h
      simp only [Prod.mk.injEq] at h
      obtain ⟨rfl, rfl, rfl⟩ := h
      obtain ⟨ih1, ih2⟩ := ih f g' evs' htr
      constructor
      · rw [runDirs, hc]
        exact ih1
      · rw [List.map_cons, ← ih2]

/-- C8: the orchestrator's calls happen in a fixed deterministic order —
on a successful run the recorded call trace is exactly the five
`create_directory` calls in the listed order, then the two `create_file`
calls with empty content, then the success print as the very last step —
and the instrumented run agrees with `setup_project_structure`. -/
theorem C8_orchestrator_call_order (fs f : FS) (evs : List Event)
    (h : setup_trace fs = (f, evs, Except.ok ())) :
    evs = [Event.mkdirCall "src/main/config", Event.mkdirCall "src/main/service",
           Event.mkdirCall "src/main/controller", Event.mkdirCall "src/main/resources",
           Event.mkdirCall "src/test/resources",
           Event.writeCall "src/main/resources/config.ini" "",
           Event.writeCall "src/test/resources/config.ini" "",
           Event.printLine success_message]
    ∧ setup_project_structure fs = (f, Except.ok [success_message])
    ∧ evs.getLast? = some (Event.printLine success_message) := by
  unfold setup_trace at h
  rcases htr : runDirsTr fs base_dirs with ⟨f0, evs0, r0⟩
  rw [htr] at h
  cases r0 with
  | some e => simp at h
  | none =>
    obtain ⟨hrd, hevs0⟩ := runDirsTr_none_agree base_dirs fs f0 evs0 htr
    dsimp only [] at h
    cases hc1 : create_file f0 "src/main/resources/config.ini" with
    | error e1 =>
      rw [hc1] at h
      simp at h
    | ok f1 =>
      rw [hc1] at h
      dsimp only [] at h
      cases hc2 : create_file f1 "src/test/resources/config.ini" with
      | error e2 =>
        rw [hc2] at h
        simp at h
      | ok f2 =>
        rw [hc2] at h
        simp only [Prod.mk.injEq] at h
        obtain ⟨rfl, rfl, -⟩ := h
        refine ⟨?_, ?_, ?_⟩
        · rw [hevs0]
          rfl
        · unfold setup_project_structure
          rw [hrd]
          dsimp only []
          rw [hc1]
          dsimp only []
          rw [hc2]
        · rw [hevs0]
          rfl

/-- Witness for C8: the instrumented run from the empty directory records
exactly the eight calls in order, with the print last. -/
theorem C8_orchestrator_call_order_witness :
    [Event.mkdirCall "src/main/config", Event.mkdirCall "src/main/service",
     Event.mkdirCall "src/main/controller", Event.mkdirCall "src/main/resources",
     Event.mkdirCall "src/test/resources",
     Event.writeCall "src/main/resources/config.ini" "",
     Event.writeCall "src/test/resources/config.ini" "",
     Event.printLine success_message]
      = [Event.mkdirCall "src/main/config", Event.mkdirCall "src/main/service",
         Event.mkdirCall "src/main/controller", Event.mkdirCall "src/main/resources",
         Event.mkdirCall "src/test/resources",
         Event.writeCall "src/main/resources/config.ini" "",
         Event.writeCall "src/test/resources/config.ini" "",
         Event.printLine success_message]
    ∧ setup_project_structure FS.empty = (⟨scaffold_entries⟩, Except.ok [success_message])
    ∧ ([Event.mkdirCall "src/main/config", Event.mkdirCall "src/main/service",
        Event.mkdirCall "src/main/controller", Event.mkdirCall "src/main/resources",
        Event.mkdirCall "src/test/resources",
        Event.writeCall "src/main/resources/config.ini" "",
        Event.writeCall "src/test/resources/config.ini" "",
        Event.printLine success_message] : List Event).getLast?
      = some (Event.printLine success_message) :=
  C8_orchestrator_call_order FS.empty ⟨scaffold_entries⟩
    [Event.mkdirCall "src/main/config", Event.mkdirCall "src/main/service",
     Event.mkdirCall "src/main/controller", Event.mkdirCall "src/main/resources",
     Event.mkdirCall "src/test/resources",
     Event.writeCall "src/main/resources/config.ini" "",
     Event.writeCall "src/test/resources/config.ini" "",
     Event.printLine success_message] rfl

/-- C4: when a `start` run succeeds, running it again from the resulting
state succeeds with the same output; the second run's only writes are
rewriting the two `config.ini` files with identical empty content, and
the final filesystem state is extensionally the same as after the first
run. -/
theorem C4_second_run_idempotent (fs fs₁ : FS) (out : List String)
    (h : setup_project_structure fs = (fs₁, Except.ok out)) :
    setup_project_structure fs₁ =
      (⟨(splitPath "src/test/resources/config.ini", Entry.file "")
          :: (splitPath "src/main/resources/config.ini", Entry.file "")
          :: fs₁.entries⟩, Except.ok out)
    ∧ (∀ q : Path,
        FS.lookup ⟨(splitPath "src/test/resources/config.ini", Entry.file "")
          :: (splitPath "src/main/resources/config.ini", Entry.file "")
          :: fs₁.entries⟩ q = fs₁.lookup q) := by
  unfold setup_project_structure at h
  rcases hrd : runDirs fs base_dirs with ⟨g, r0⟩
  rw [hrd] at h
  cases r0 with
  | some e => simp at h
  | none =>
    dsimp only [] at h
    cases hc1 : create_file g "src/main/resources/config.ini" with
    | error e1 =>
      rw [hc1] at h
      simp at h
    | ok g1 =>
      rw [hc1] at h
      dsimp only [] at h
      cases hc2 : create_file g1 "src/test/resources/config.ini" with
      | error e2 =>
        rw [hc2] at h
        simp at h
      | ok g2 =>
        rw [hc2] at h
        simp only [Prod.mk.injEq, Except.ok.injEq] at h
        obtain ⟨hEq, hOut⟩ := h
        rw [← hEq, ← hOut]
        obtain ⟨ha1, hd1, hfg1⟩ := create_file_ok_inv g _ _ g1 hc1
        obtain ⟨ha2, hd2, hfg2⟩ := create_file_ok_inv g1 _ _ g2 hc2
        have hex := runDirs_ok_exists base_dirs fs g hrd
        have hg2FS : g2 = ⟨(splitPath "src/test/resources/config.ini", Entry.file "")
            :: (splitPath "src/main/resources/config.ini", Entry.file "") :: g.entries⟩ := by
          rw [hfg2, hfg1]
        have hlk : ∀ pd : Path, pd ≠ splitPath "src/test/resources/config.ini" →
            pd ≠ splitPath "src/main/resources/config.ini" →
            FS.lookup g2 pd = FS.lookup g pd := by
          intro pd h2 h1
          rw [hg2FS, FS.lookup_mk_cons, if_neg (fun he => h2 he.symm),
            FS.lookup_mk_cons, if_neg (fun he => h1 he.symm)]
        have hx1 : (FS.lookup g2 (splitPath "src/main/config")).isSome = true := by
          rw [hlk _ (by decide) (by decide)]
          exact hex _ (by decide)
        have hx2 : (FS.lookup g2 (splitPath "src/main/service")).isSome = true := by
          rw [hlk _ (by decide) (by decide)]
          exact hex _ (by decide)
        have hx3 : (FS.lookup g2 (splitPath "src/main/controller")).isSome = true := by
          rw [hlk _ (by decide) (by decide)]
          exact hex _ (by decide)
        have hx4 : (FS.lookup g2 (splitPath "src/main/resources")).isSome = true := by
          rw [hlk _ (by decide) (by decide)]
          exact hex _ (by decide)
        have hx5 : (FS.lookup g2 (splitPath "src/test/resources")).isSome = true := by
          rw [hlk _ (by decide) (by decide)]
          exact hex _ (by decide)
        have hcd1 : create_directory g2 "src/main/config" = .ok g2 :=
          create_directory_of_exists _ _ hx1
        have hcd2 : create_directory g2 "src/main/service" = .ok g2 :=
          create_directory_of_exists _ _ hx2
        have hcd3 : create_directory g2 "src/main/controller" = .ok g2 :=
          create_directory_of_exists _ _ hx3
        have hcd4 : create_directory g2 "src/main/resources" = .ok g2 :=
          create_directory_of_exists _ _ hx4
        have hcd5 : create_directory g2 "src/test/resources" = .ok g2 :=
          create_directory_of_exists _ _ hx5
        have hrd2 : runDirs g2 base_dirs = (g2, none) := by
          simp only [base_dirs, runDirs, hcd1, hcd2, hcd3, hcd4, hcd5]
        have hA123 := List.all_eq_true.mp ha1
        have hA1 : isDirEntry (FS.lookup g ["src"]) = true := hA123 ["src"] (by decide)
        have hA2 : isDirEntry (FS.lookup g ["src", "main"]) = true :=
          hA123 ["src", "main"] (by decide)
        have hA3 : isDirEntry (FS.lookup g ["src", "main", "resources"]) = true :=
          hA123 ["src", "main", "resources"] (by decide)
        have hB123 := List.all_eq_true.mp ha2
        have hB1g1 : isDirEntry (FS.lookup g1 ["src", "test"]) = true :=
          hB123 ["src", "test"] (by decide)
        have hB2g1 : isDirEntry (FS.lookup g1 ["src", "test", "resources"]) = true :=
          hB123 ["src", "test", "resources"] (by decide)
        have hB1 : isDirEntry (FS.lookup g ["src", "test"]) = true := by
          rw [hfg1, FS.lookup_mk_cons, if_neg (by decide)] at hB1g1
          exact hB1g1
        have hB2 : isDirEntry (FS.lookup g ["src", "test", "resources"]) = true := by
          rw [hfg1, FS.lookup_mk_cons, if_neg (by decide)] at hB2g1
          exact hB2g1
        have hg2A1 : isDirEntry (FS.lookup g2 ["src"]) = true := by
          rw [hlk _ (by decide) (by decide)]
          exact hA1
        have hg2A2 : isDirEntry (FS.lookup g2 ["src", "main"]) = true := by
          rw [hlk _ (by decide) (by decide)]
          exact hA2
        have hg2A3 : isDirEntry (FS.lookup g2 ["src", "main", "resources"]) = true := by
          rw [hlk _ (by decide) (by decide)]
          exact hA3
        have hg2B1 : isDirEntry (FS.lookup g2 ["src", "test"]) = true := by
          rw [hlk _ (by decide) (by decide)]
          exact hB1
        have hg2B2 : isDirEntry (FS.lookup g2 ["src", "test", "resources"]) = true := by
          rw [hlk _ (by decide) (by decide)]
          exact hB2
        have hall1 : (pathPrefixes (splitPath "src/main/resources/config.ini").dropLast).all
            (fun q => isDirEntry (FS.lookup g2 q)) = true := by
          apply List.all_eq_true.mpr
          intro q hq
          rw [show pathPrefixes (splitPath "src/main/resources/config.ini").dropLast
              = [["src"], ["src", "main"], ["src", "main", "resources"]] from rfl] at hq
          simp only [List.mem_cons, List.not_mem_nil, or_false] at hq
          rcases hq with rfl | rfl | rfl
          · exact hg2A1
          · exact hg2A2
          · exact hg2A3
        have hdir1 : ¬ (isDirEntry
            (FS.lookup g2 (splitPath "src/main/resources/config.ini")) = true) := by
          rw [hg2FS, FS.lookup_mk_cons, if_neg (by decide), FS.lookup_mk_cons, if_pos rfl]
          decide
        have hcf1 : create_file g2 "src/main/resources/config.ini"
            = .ok ⟨(splitPath "src/main/resources/config.ini", Entry.file "")
                :: g2.entries⟩ := by
          unfold create_file
          rw [if_pos hall1, if_neg hdir1]
          rfl
        have hall2 : (pathPrefixes (splitPath "src/test/resources/config.ini").dropLast).all
            (fun q => isDirEntry (FS.lookup
              ⟨(splitPath "src/main/resources/config.ini", Entry.file "")
                :: g2.entries⟩ q)) = true := by
          apply List.all_eq_true.mpr
          intro q hq
          rw [show pathPrefixes (splitPath "src/test/resources/config.ini").dropLast
              = [["src"], ["src", "test"], ["src", "test", "resources"]] from rfl] at hq
          simp only [List.mem_cons, List.not_mem_nil, or_false] at hq
          rcases hq with rfl | rfl | rfl
          · rw [FS.lookup_mk_cons, if_neg (by decide)]
            exact hg2A1
          · rw [FS.lookup_mk_cons, if_neg (by decide)]
            exact hg2B1
          · rw [FS.lookup_mk_cons, if_neg (by decide)]
            exact hg2B2
        have hdir2 : ¬ (isDirEntry (FS.lookup
            ⟨(splitPath "src/main/resources/config.ini", Entry.file "") :: g2.entries⟩
            (splitPath "src/test/resources/config.ini")) = true) := by
          rw [FS.lookup_mk_cons, if_neg (by decide), hg2FS, FS.lookup_mk_cons, if_pos rfl]
          decide
        have hcf2 : create_file ⟨(splitPath "src/main/resources/config.ini", Entry.file "")
              :: g2.entries⟩ "src/test/resources/config.ini"
            = .ok ⟨(splitPath "src/test/resources/config.ini", Entry.file "")
              :: (splitPath "src/main/resources/config.ini", Entry.file "")
              :: g2.entries⟩ := by
          unfold create_file
          rw [if_pos hall2, if_neg hdir2]
          rfl
        constructor
        · unfold setup_project_structure
          rw [hrd2]
          dsimp only []
          rw [hcf1]
          dsimp only []
          rw [hcf2]
        · intro q
          rw [FS.lookup_mk_cons, FS.lookup_mk_cons]
          by_cases h2 : splitPath "src/test/resources/config.ini" = q
          · rw [if_pos h2, ← h2, hg2FS, FS.lookup_mk_cons, if_pos rfl]
          · rw [if_neg h2]
            by_cases h1 : splitPath "src/main/resources/config.ini" = q
            · rw [if_pos h1, ← h1, hg2FS, FS.lookup_mk_cons, if_neg (by decide),
                FS.lookup_mk_cons, if_pos rfl]
            · rw [if_neg h1]

/-- Witness for C4: starting from the state a first run produced from the
empty directory, a second run succeeds with the same output, merely
re-consing the two empty file entries, and the file lookup is unchanged. -/
theorem C4_second_run_idempotent_witness :
    setup_project_structure ⟨scaffold_entries⟩ =
      (⟨(splitPath "src/test/resources/config.ini", Entry.file "")
          :: (splitPath "src/main/resources/config.ini", Entry.file "")
          :: scaffold_entries⟩, Except.ok [success_message])
    ∧ FS.lookup ⟨(splitPath "src/test/resources/config.ini", Entry.file "")
          :: (splitPath "src/main/resources/config.ini", Entry.file "")
          :: scaffold_entries⟩ (splitPath "src/main/resources/config.ini")
      = FS.lookup ⟨scaffold_entries⟩ (splitPath "src/main/resources/config.ini") :=
  ⟨(C4_second_run_idempotent FS.empty ⟨scaffold_entries⟩ [success_message] rfl).1,
   (C4_second_run_idempotent FS.empty ⟨scaffold_entries⟩ [success_message] rfl).2
     (splitPath "src/main/resources/config.ini")⟩

end FCM
